import Mathlib

/-!
Shallow embedding of the OCR comparison harness (`main.py`,
`utils/metrics.py`, `utils/file_utils.py`) and proofs about the claims
on its metrics pipeline, input resolution, run-directory allocation and
per-pairing orchestration.

Python dynamic values stored in metrics mappings are modelled by `PyVal`.
Floating point numbers in this program are always produced by
`round(x, 3)` and are modelled exactly as integer counts of thousandths
(`PyVal.fl ms` stands for the float `ms / 1000`).  `float()` applied to a
string is modelled as raising (its argument is never a numeric string in
this program).
-/

/-- A Python value as stored in a `dict[str, object]` metrics mapping. -/
inductive PyVal where
  | pnone : PyVal
  | str : String → PyVal
  | int : Int → PyVal
  | fl : Int → PyVal
deriving DecidableEq, Repr

/-- A Python metrics dict: association list from keys to values. -/
abbrev Metrics := List (String × PyVal)

/-- `dict.get(k)`: first binding of `k`, if any. -/
def mget (m : Metrics) (k : String) : Option PyVal :=
  (m.find? (fun e => decide (e.1 = k))).map (fun e => e.2)

/-- `dict.get(k, d)`: lookup with default. -/
def mgetD (m : Metrics) (k : String) (d : PyVal) : PyVal :=
  (mget m k).getD d

/-- `dict.setdefault(k, v)`: insert `v` at `k` only when `k` is absent. -/
def msetdefault (m : Metrics) (k : String) (v : PyVal) : Metrics :=
  if (mget m k).isSome then m else m ++ [(k, v)]

/-- Removal of every binding of key `k` (used to compare a mapping with
the same mapping lacking one key). -/
def mremove (m : Metrics) (k : String) : Metrics :=
  m.filter (fun e => decide (e.1 ≠ k))

/-- Little-endian base-10 digits of `n`, with explicit structural fuel
(`decDigitsAux fuel n` is correct whenever `n ≤ fuel`). -/
def decDigitsAux : Nat → Nat → List Nat
  | 0, _ => []
  | _ + 1, 0 => []
  | fuel + 1, n + 1 => (n + 1) % 10 :: decDigitsAux fuel ((n + 1) / 10)

/-- Little-endian base-10 digits of `n` (empty for `0`). -/
def decDigits (n : Nat) : List Nat :=
  decDigitsAux n n

/-- The ASCII character of a decimal digit. -/
def digitChar (d : Nat) : Char :=
  Char.ofNat (48 + d)

/-- Decimal rendering of a natural number, as a character list. -/
def natDecL (n : Nat) : List Char :=
  if n = 0 then ['0'] else ((decDigits n).map digitChar).reverse

/-- Decimal rendering of a natural number. -/
def natDec (n : Nat) : String :=
  ⟨natDecL n⟩

/-- Python `f"{n:02d}"` for a natural number, as a character list. -/
def pad2L (n : Nat) : List Char :=
  if n < 10 then '0' :: natDecL n else natDecL n

/-- Python `f"{n:02d}"` for a natural number. -/
def pad2 (n : Nat) : String :=
  ⟨pad2L n⟩

/-- Three-digit zero padding of `n < 1000` (fractional part of a
3-decimal fixed-point rendering). -/
def pad3L (n : Nat) : List Char :=
  if n < 10 then '0' :: '0' :: natDecL n
  else if n < 100 then '0' :: natDecL n
  else natDecL n

/-- Decimal rendering of an integer. -/
def intDec : Int → String
  | Int.ofNat n => natDec n
  | Int.negSucc n => "-" ++ natDec (n + 1)

/-- Python `f"{x:.3f}"` where `x` is the float `ms / 1000`. -/
def f3 (ms : Int) : String :=
  (if ms < 0 then "-" else "") ++ natDec (ms.natAbs / 1000) ++ "." ++ ⟨pad3L (ms.natAbs % 1000)⟩

/-- Python `str(x)` where `x` is the float `ms / 1000`: trailing zeros of
the fractional part are dropped, keeping at least one digit. -/
def flStr (ms : Int) : String :=
  let frac := (((pad3L (ms.natAbs % 1000)).reverse.dropWhile (fun c => decide (c = '0'))).reverse)
  (if ms < 0 then "-" else "") ++ natDec (ms.natAbs / 1000) ++ "." ++
    ⟨if frac = [] then ['0'] else frac⟩

/-- Python `str(v)` for a metrics value. -/
def pyStr : PyVal → String
  | .pnone => "None"
  | .str s => s
  | .int n => intDec n
  | .fl q => flStr q

/-- Python truthiness of a metrics value. -/
def pyTruthy : PyVal → Bool
  | .pnone => false
  | .str s => decide (s ≠ "")
  | .int n => decide (n ≠ 0)
  | .fl q => decide (q ≠ 0)

/-- `utils/metrics.py`, `format_metrics_line`: one metrics dict rendered
as a single-line record.  The result is `none` exactly when
`float(duration)` raises (a string value under `duration_sec`). -/
def format_metrics_line (pdf_name : String) (metrics : Metrics) : Option String :=
  let provider := pyStr (mgetD metrics "provider" (.str "unknown"))
  let duration_value : Option String :=
    match mgetD metrics "duration_sec" .pnone with
    | .pnone => some "n/a"
    | .int n => some (f3 (n * 1000) ++ "s")
    | .fl q => some (f3 q ++ "s")
    | .str _ => none
  let tokens := pyStr (mgetD metrics "tokens" (.str "n/a"))
  let cost := pyStr (mgetD metrics "estimated_cost" (.str "n/a"))
  let model := mgetD metrics "model" .pnone
  duration_value.map (fun tv =>
    let line := "provider=" ++ provider ++ " pdf=" ++ pdf_name ++
      " time=" ++ tv ++ " tokens=" ++ tokens ++ " cost=" ++ cost
    if pyTruthy model then line ++ " model=" ++ pyStr model else line)

/-- Spec-side `provider` field value: the rendered provider value
(`unknown` when absent). -/
def specProviderField (metrics : Metrics) : String :=
  match mget metrics "provider" with
  | some v => pyStr v
  | none => "unknown"

/-- Spec-side `time` field value: the duration suffixed with `s`, or
the literal `n/a` when no numeric duration is present. -/
def specTimeField (metrics : Metrics) : String :=
  match mget metrics "duration_sec" with
  | some (.int n) => f3 (n * 1000) ++ "s"
  | some (.fl q) => f3 q ++ "s"
  | _ => "n/a"

/-- Spec-side `tokens` field value: the rendered value, or the literal
`n/a` when the key is absent. -/
def specTokensField (metrics : Metrics) : String :=
  match mget metrics "tokens" with
  | some v => pyStr v
  | none => "n/a"

/-- Spec-side `cost` field value: the rendered value, or the literal
`n/a` when the key is absent. -/
def specCostField (metrics : Metrics) : String :=
  match mget metrics "estimated_cost" with
  | some v => pyStr v
  | none => "n/a"

/-- Spec-side optional trailing ` model=` field: appended exactly when
a truthy model value is present, empty otherwise. -/
def specModelSuffix (metrics : Metrics) : String :=
  match mget metrics "model" with
  | some v => if pyTruthy v then " model=" ++ pyStr v else ""
  | none => ""

/-- The metrics line as the specification words it: fixed field order
`provider`, `pdf`, `time` (duration suffixed `s`, or `n/a`), `tokens`
(`n/a` if absent), `cost` (`n/a` if absent), and a trailing `model=`
field appended only for a truthy model value. -/
def specMetricsLine (pdf_name : String) (metrics : Metrics) : String :=
  "provider=" ++ specProviderField metrics ++ " pdf=" ++ pdf_name ++
    " time=" ++ specTimeField metrics ++ " tokens=" ++ specTokensField metrics ++
    " cost=" ++ specCostField metrics ++ specModelSuffix metrics

/-- The `duration_sec` entry, when present, is not a string (so
`float()` does not raise on it). -/
def numericDur (metrics : Metrics) : Bool :=
  match mget metrics "duration_sec" with
  | some (.str _) => false
  | _ => true

/-- The error kinds raised by the orchestration code: Python
`FileNotFoundError` (spec `NotFound`) and `ValueError` (spec
`InvalidInput`), each carrying its message. -/
inductive PyErr where
  | fileNotFound : String → PyErr
  | valueError : String → PyErr
deriving DecidableEq, Repr

/-- Python whitespace as removed by `str.strip()`. -/
def isPySpace (c : Char) : Bool :=
  decide (c = ' ' ∨ c = '\t' ∨ c = '\n' ∨ c = '\r' ∨ c = '\x0b' ∨ c = '\x0c')

/-- Python `str.strip()`. -/
def pyTrim (s : String) : String :=
  ⟨((s.data.dropWhile isPySpace).reverse.dropWhile isPySpace).reverse⟩

/-- Python `str.lower()` (ASCII case folding suffices for this program's
provider names). -/
def pyLower (s : String) : String :=
  ⟨s.data.map Char.toLower⟩

/-- Python `str.split(",")` on a character list: always at least one
group, empty groups preserved. -/
def splitComma : List Char → List (List Char)
  | [] => [[]]
  | c :: rest =>
    match splitComma rest with
    | [] => [[]]
    | g :: gs => if c = ',' then [] :: g :: gs else (c :: g) :: gs

/-- Python `str.split(",")`. -/
def pySplit (s : String) : List String :=
  (splitComma s.data).map (fun g => ⟨g⟩)

/-- The keys of the `PROVIDERS` dict in `main.py`. -/
def providerKeys : List String :=
  ["mistral", "landing_ai", "openai", "gemini", "marker"]

/-- The list comprehension in `parse_provider_names`: split on commas,
drop entries whose strip is empty, strip and lowercase the rest. -/
def requestedOf (raw : String) : List String :=
  ((pySplit raw).filter (fun item => decide (pyTrim item ≠ ""))).map
    (fun item => pyLower (pyTrim item))

/-- `main.py`, `parse_provider_names`: validate selected provider names
and return the normalized provider list. -/
def parse_provider_names (raw_providers : String) : Except PyErr (List String) :=
  let requested := requestedOf raw_providers
  if requested = [] then
    .error (.valueError "No providers were selected. Pass at least one provider.")
  else
    let unknown := requested.filter (fun name => decide (name ∉ providerKeys))
    if unknown = [] then .ok requested
    else .error (.valueError ("Unsupported providers: " ++ String.intercalate ", " unknown))

/-- `pathlib.PurePath.suffix` on a file name: the part of the name from
its last dot, when that dot is neither the first nor the last character;
empty otherwise. -/
def pySuffix (name : String) : String :=
  let l := name.data
  match l.reverse.findIdx? (fun c => decide (c = '.')) with
  | none => ""
  | some j =>
    let i := l.length - 1 - j
    if 0 < i ∧ i < l.length - 1 then ⟨l.drop i⟩ else ""

/-- Code-point lexicographic comparison of character lists, the order
Python's `sorted` uses on the file names. -/
def charsLe : List Char → List Char → Bool
  | [], _ => true
  | _ :: _, [] => false
  | a :: as, b :: bs =>
    if a = b then charsLe as bs else decide (a.toNat < b.toNat)

/-- Python string comparison `a <= b`. -/
def strLe (a b : String) : Bool :=
  charsLe a.data b.data

/-- `strLe` as a decidable relation for sorting lemmas. -/
def strLeP : String → String → Prop :=
  fun a b => strLe a b = true

instance : DecidableRel strLeP :=
  fun a b => Bool.decEq (strLe a b) true

theorem char_toNat_injective {a b : Char} (h : a.toNat = b.toNat) : a = b := by
  cases a with
  | mk av ah =>
    cases b with
    | mk bv bh =>
      congr 1
      cases av
      cases bv
      simp only [Char.toNat, UInt32.toNat] at h
      congr 1
      exact BitVec.toNat_injective h

theorem charsLe_total : ∀ as bs : List Char, charsLe as bs = true ∨ charsLe bs as = true
  | [], bs => Or.inl rfl
  | _ :: _, [] => Or.inr rfl
  | a :: as, b :: bs => by
    by_cases hab : a = b
    · subst hab
      simpa [charsLe] using charsLe_total as bs
    · have hba : b ≠ a := fun h => hab h.symm
      have hne : a.toNat ≠ b.toNat := fun h => hab (char_toNat_injective h)
      rcases Nat.lt_or_ge a.toNat b.toNat with h | h
      · exact Or.inl (by simp [charsLe, hab, h])
      · have : b.toNat < a.toNat := lt_of_le_of_ne h (fun h2 => hne h2.symm)
        exact Or.inr (by simp [charsLe, hba, this])

theorem charsLe_trans : ∀ as bs cs : List Char,
    charsLe as bs = true → charsLe bs cs = true → charsLe as cs = true
  | [], _, _, _, _ => rfl
  | _ :: _, [], _, h1, _ => by simp [charsLe] at h1
  | _ :: _, _ :: _, [], _, h2 => by simp [charsLe] at h2
  | a :: as, b :: bs, c :: cs, h1, h2 => by
    by_cases hab : a = b <;> by_cases hbc : b = c
    · subst hab; subst hbc
      simp only [charsLe, if_pos rfl] at h1 h2 ⊢
      exact charsLe_trans as bs cs h1 h2
    · subst hab
      have h' : a.toNat < c.toNat := by simpa [charsLe, hbc] using h2
      simp [charsLe, hbc, h']
    · subst hbc
      have h' : a.toNat < b.toNat := by simpa [charsLe, hab] using h1
      simp [charsLe, hab, h']
    · have h1' : a.toNat < b.toNat := by simpa [charsLe, hab] using h1
      have h2' : b.toNat < c.toNat := by simpa [charsLe, hbc] using h2
      have hac : a.toNat < c.toNat := lt_trans h1' h2'
      have : a ≠ c := fun h => absurd (h ▸ hac) (lt_irrefl _)
      simp [charsLe, this, hac]

instance : IsTotal String strLeP :=
  ⟨fun a b => charsLe_total a.data b.data⟩

instance : IsTrans String strLeP :=
  ⟨fun a b c => charsLe_trans a.data b.data c.data⟩

/-- A directory as seen by `list_pdfs` / `resolve_pdf_paths`: `none`
when the directory does not exist, otherwise the names of the files it
contains. -/
abbrev DirModel := Option (List String)

/-- `main.py`, `list_pdfs`: all PDFs in the input directory sorted by
filename, or `FileNotFoundError` when the directory is missing.
`dirPath` is the textual path used in the error message. -/
def list_pdfs (dirPath : String) (dir : DirModel) : Except PyErr (List String) :=
  match dir with
  | none => .error (.fileNotFound ("Input directory does not exist: " ++ dirPath))
  | some entries =>
    .ok (List.insertionSort strLeP
      (entries.filter (fun name => decide (pyLower (pySuffix name) = ".pdf"))))

/-- `main.py`, `resolve_pdf_paths`: either all PDFs in the folder or the
one selected PDF file.  A `none` or empty `input_file` is falsy in
Python, so both select the whole-folder branch. -/
def resolve_pdf_paths (dirPath : String) (dir : DirModel) (input_file : Option String) :
    Except PyErr (List String) :=
  match input_file with
  | none => list_pdfs dirPath dir
  | some f =>
    if f = "" then list_pdfs dirPath dir
    else
      let selectedName := dirPath ++ "/" ++ f
      match dir with
      | none => .error (.fileNotFound ("Input PDF does not exist: " ++ selectedName))
      | some entries =>
        if f ∈ entries then
          if pyLower (pySuffix f) ≠ ".pdf" then
            .error (.valueError ("Input file must be a PDF: " ++ f))
          else .ok [selectedName]
        else .error (.fileNotFound ("Input PDF does not exist: " ++ selectedName))

/-- A filesystem path as a list of components. -/
abbrev PathC := List String

/-- The filesystem state touched by the harness: the set of existing
directories and the text files with their contents. -/
structure FS where
  dirs : List PathC
  files : List (PathC × String)
deriving DecidableEq, Repr

/-- `Path.exists()`: the path names a directory or a file. -/
def pathExists (fs : FS) (p : PathC) : Prop :=
  p ∈ fs.dirs ∨ p ∈ fs.files.map Prod.fst

instance (fs : FS) (p : PathC) : Decidable (pathExists fs p) := by
  unfold pathExists
  infer_instance

/-- `utils/file_utils.py`, `ensure_dir`: create a directory and its
missing parents (`mkdir(parents=True, exist_ok=True)`). -/
def ensure_dir (fs : FS) (p : PathC) : FS :=
  { fs with dirs := fs.dirs ++ p.inits.filter (fun q => decide (q ∉ fs.dirs)) }

/-- The contents of the file at `p`, when one exists. -/
def getFile (fs : FS) (p : PathC) : Option String :=
  (fs.files.find? (fun e => decide (e.1 = p))).map (fun e => e.2)

/-- The contents of the file at `p`, the empty string when absent (what
an append-mode open starts from). -/
def contentOf (fs : FS) (p : PathC) : String :=
  (getFile fs p).getD ""

/-- Replace (or create) the file at `p` with contents `c`. -/
def setFile (fs : FS) (p : PathC) (c : String) : FS :=
  { fs with files := (p, c) :: fs.files.filter (fun e => decide (e.1 ≠ p)) }

/-- `utils/metrics.py`, `append_metrics`: ensure the parent directory,
open in append mode and write the line followed by one newline. -/
def append_metrics (fs : FS) (p : PathC) (line : String) : FS :=
  let fs1 := ensure_dir fs p.dropLast
  setFile fs1 p (contentOf fs1 p ++ line ++ "\n")

/-- `utils/file_utils.py`, `save_markdown`: ensure the parent directory
and overwrite the file with the markdown text. -/
def save_markdown (fs : FS) (p : PathC) (content : String) : FS :=
  setFile (ensure_dir fs p.dropLast) p content

/-- The run-id candidate tried at step `k` of the collision loop in
`create_run_output_dir`: the bare timestamp first, then two-digit
suffixes. -/
def cand (base : String) : Nat → String
  | 0 => base
  | k + 1 => base ++ "_" ++ pad2 (k + 1)

/-- The collision `while` loop of `create_run_output_dir`, with explicit
fuel (the loop itself is unbounded; any fuel larger than the number of
existing paths suffices, proved below). -/
def findRunIdAux (fs : FS) (runsDir : PathC) (base : String) : Nat → Nat → Option String
  | 0, _ => none
  | fuel + 1, k =>
    if pathExists fs (runsDir ++ [cand base k]) then findRunIdAux fs runsDir base fuel (k + 1)
    else some (cand base k)

/-- The number of paths that exist in `fs` (bounds the collision loop). -/
def sizeFS (fs : FS) : Nat :=
  (fs.dirs ++ fs.files.map Prod.fst).length

/-- `main.py`, `create_run_output_dir`: create and return a unique run
directory id and path.  `now` is the wall-clock timestamp string
(`%Y%m%d_%H%M%S`), a parameter of the model. -/
def create_run_output_dir (fs : FS) (output_dir : PathC) (now : String) :
    String × PathC × FS :=
  let runsDir := output_dir ++ ["runs"]
  let fs1 := ensure_dir fs runsDir
  let run_id := (findRunIdAux fs1 runsDir now (sizeFS fs1 + 1) 0).getD now
  let run_output_dir := runsDir ++ [run_id]
  (run_id, run_output_dir, ensure_dir fs1 run_output_dir)

/-- A provider adapter invocation: the markdown and metrics it returns,
or the message of the exception it raises.  Adapters are remote calls
outside this repository; each invocation's outcome is a parameter. -/
abbrev AdapterResult := Except String (String × Metrics)

/-- The `try` body of `run_provider_for_pdf`: write the markdown, fill
metrics defaults, format the line and append it to both logs.  An error
carries the message and the filesystem state reached when it was
raised (the adapter itself writes nothing). -/
def runProviderTry (run_id provider_name : String) (result : AdapterResult)
    (okMs : Int) (pdf_name pdf_stem : String)
    (run_output_dir run_metrics_path global_metrics_path : PathC) (fs : FS) :
    Except (String × FS) FS :=
  match result with
  | .error e => .error (e, fs)
  | .ok (markdown, metrics) =>
    let provider_output_dir := run_output_dir ++ [provider_name]
    let fs1 := ensure_dir fs provider_output_dir
    let output_path := provider_output_dir ++ [pdf_stem ++ ".md"]
    let fs2 := save_markdown fs1 output_path markdown
    let m1 := msetdefault metrics "run_id" (.str run_id)
    let m2 := msetdefault m1 "provider" (.str provider_name)
    let m3 := msetdefault m2 "duration_sec" (.fl okMs)
    match format_metrics_line pdf_name m3 with
    | none => .error ("could not convert string to float", fs2)
    | some line =>
      .ok (append_metrics (append_metrics fs2 run_metrics_path line) global_metrics_path line)

/-- `main.py`, `run_provider_for_pdf`: run one provider for one PDF and
persist markdown + metrics; any exception is caught and turned into an
error-suffixed metrics line appended to both logs. -/
def run_provider_for_pdf (run_id provider_name : String) (result : AdapterResult)
    (okMs errMs : Int) (pdf_name pdf_stem : String)
    (run_output_dir run_metrics_path global_metrics_path : PathC) (fs : FS) : FS :=
  match runProviderTry run_id provider_name result okMs pdf_name pdf_stem
      run_output_dir run_metrics_path global_metrics_path fs with
  | .ok fs2 => fs2
  | .error (e, fsMid) =>
    let failed_metrics : Metrics :=
      [("run_id", .str run_id), ("provider", .str provider_name),
       ("duration_sec", .fl errMs), ("error", .str e)]
    let line := (format_metrics_line pdf_name failed_metrics).getD ""
    append_metrics (append_metrics fsMid run_metrics_path (line ++ " error=" ++ e))
      global_metrics_path (line ++ " error=" ++ e)

/-- The inner provider loop of `main` for one PDF (`pdf` is the file
name together with its stem).  `adapter`, `okMs` and `errMs` give each
pairing's outcome and timings, indexed by provider and pdf name. -/
def runOnePdf (run_id : String) (adapter : String → String → AdapterResult)
    (okMs errMs : String → String → Int) (provider_names : List String)
    (pdf : String × String) (run_output_dir run_metrics_path global_metrics_path : PathC)
    (fs : FS) : FS :=
  provider_names.foldl
    (fun acc pn =>
      run_provider_for_pdf run_id pn (adapter pn pdf.1) (okMs pn pdf.1) (errMs pn pdf.1)
        pdf.1 pdf.2 run_output_dir run_metrics_path global_metrics_path acc)
    fs

/-- The pairing cross-product loop of `main`: outer loop over PDFs,
inner loop over providers, with the run-scoped and global metrics paths
formed exactly as in `main`. -/
def runAllPairings (run_id : String) (adapter : String → String → AdapterResult)
    (okMs errMs : String → String → Int) (provider_names : List String)
    (pdfs : List (String × String)) (output_dir : PathC) (fs : FS) : FS :=
  let run_output_dir := output_dir ++ ["runs", run_id]
  let run_metrics_path := run_output_dir ++ ["metrics.txt"]
  let global_metrics_path := output_dir ++ ["metrics.txt"]
  pdfs.foldl
    (fun acc pdf =>
      runOnePdf run_id adapter okMs errMs provider_names pdf run_output_dir
        run_metrics_path global_metrics_path acc)
    fs

theorem strEq_of_data {a b : String} (h : a.data = b.data) : a = b := by
  cases a
  cases b
  exact congrArg String.mk h

theorem find?_filter_key_ne {α β : Type} [DecidableEq α] (l : List (α × β)) (k r : α) (h : k ≠ r) :
    (l.filter (fun e => decide (e.1 ≠ r))).find? (fun e => decide (e.1 = k)) =
      l.find? (fun e => decide (e.1 = k)) := by
  induction l with
  | nil => rfl
  | cons e t ih =>
    by_cases he : e.1 = r
    · have hk : ¬ e.1 = k := by
        rw [he]
        exact fun hh => h hh.symm
      rw [List.filter_cons_of_neg (by simpa using he),
        List.find?_cons_of_neg _ (by simpa using hk), ih]
    · by_cases hk : e.1 = k
      · rw [List.filter_cons_of_pos (by simpa using he),
          List.find?_cons_of_pos _ (by simpa using hk),
          List.find?_cons_of_pos _ (by simpa using hk)]
      · rw [List.filter_cons_of_pos (by simpa using he),
          List.find?_cons_of_neg _ (by simpa using hk),
          List.find?_cons_of_neg _ (by simpa using hk), ih]

theorem mget_mremove_ne (m : Metrics) (r k : String) (h : k ≠ r) :
    mget (mremove m r) k = mget m k := by
  unfold mget mremove
  rw [find?_filter_key_ne m k r h]

theorem mget_mremove_self (m : Metrics) (r : String) :
    mget (mremove m r) r = none := by
  unfold mget mremove
  induction m with
  | nil => rfl
  | cons e t ih =>
    by_cases he : e.1 = r
    · rw [List.filter_cons_of_neg (by simp [he])]
      exact ih
    · rw [List.filter_cons_of_pos (by simpa using he),
        List.find?_cons_of_neg _ (by simpa using he)]
      exact ih

/-- C9: a `model` entry carrying a falsy value (empty string, `None`,
zero) is rendered exactly as an absent one: the formatted line equals
the line of the same mapping with the `model` key removed, so the two
are indistinguishable in the output. -/
theorem claim_C9_falsy_model (pdf_name : String) (metrics : Metrics) (v : PyVal)
    (hm : mget metrics "model" = some v) (hv : pyTruthy v = false) :
    format_metrics_line pdf_name metrics =
      format_metrics_line pdf_name (mremove metrics "model") := by
  unfold format_metrics_line mgetD
  rw [mget_mremove_ne _ _ _ (by decide), mget_mremove_ne _ _ _ (by decide),
      mget_mremove_ne _ _ _ (by decide), mget_mremove_ne _ _ _ (by decide),
      mget_mremove_self, hm]
  simp [hv, show pyTruthy PyVal.pnone = false from rfl]

/-- C9 witness: the concrete mapping with `model` bound to the empty
string formats identically to the same mapping without `model`. -/
theorem claim_C9_witness :
    mget [("provider", PyVal.str "p"), ("model", PyVal.str "")] "model" = some (PyVal.str "") ∧
    format_metrics_line "a.pdf" [("provider", PyVal.str "p"), ("model", PyVal.str "")] =
      format_metrics_line "a.pdf"
        (mremove [("provider", PyVal.str "p"), ("model", PyVal.str "")] "model") :=
  ⟨rfl, claim_C9_falsy_model "a.pdf" _ (PyVal.str "") rfl rfl⟩

/-- C2 counterexample: a mapping in which a `model` value IS present
(the empty string) yet the formatted line carries no `model=` field —
it equals the line of the same mapping without the `model` key — so the
`model=` field is not appended "exactly when a model value is present". -/
theorem claim_C2_counterexample :
    mget [("provider", PyVal.str "mistral"), ("model", PyVal.str "")] "model" =
      some (PyVal.str "") ∧
    format_metrics_line "invoice.pdf"
        [("provider", PyVal.str "mistral"), ("model", PyVal.str "")] =
      some "provider=mistral pdf=invoice.pdf time=n/a tokens=n/a cost=n/a" ∧
    format_metrics_line "invoice.pdf"
        [("provider", PyVal.str "mistral"), ("model", PyVal.str "")] =
      format_metrics_line "invoice.pdf" [("provider", PyVal.str "mistral")] :=
  ⟨rfl, rfl, rfl⟩

/-- C2 (amended): for every pdf name and metrics mapping whose
`duration_sec` value, when present, is numeric, `format_metrics_line`
returns exactly the fixed-order space-separated line the specification
describes (`specMetricsLine`), with the `model=` field appended exactly
when a truthy model value is present. -/
theorem mgetD_provider_eq_spec (metrics : Metrics) :
    pyStr (mgetD metrics "provider" (.str "unknown")) = specProviderField metrics := by
  unfold mgetD specProviderField
  rcases mget metrics "provider" with _ | v <;> rfl

theorem mgetD_tokens_eq_spec (metrics : Metrics) :
    pyStr (mgetD metrics "tokens" (.str "n/a")) = specTokensField metrics := by
  unfold mgetD specTokensField
  rcases mget metrics "tokens" with _ | v <;> rfl

theorem mgetD_cost_eq_spec (metrics : Metrics) :
    pyStr (mgetD metrics "estimated_cost" (.str "n/a")) = specCostField metrics := by
  unfold mgetD specCostField
  rcases mget metrics "estimated_cost" with _ | v <;> rfl

theorem duration_value_eq_spec (metrics : Metrics) (h : numericDur metrics = true) :
    (match mgetD metrics "duration_sec" PyVal.pnone with
      | PyVal.pnone => some "n/a"
      | PyVal.int n => some (f3 (n * 1000) ++ "s")
      | PyVal.fl q => some (f3 q ++ "s")
      | PyVal.str _ => none) = some (specTimeField metrics) := by
  unfold mgetD specTimeField
  unfold numericDur at h
  rcases hv : mget metrics "duration_sec" with _ | v
  · rfl
  · rw [hv] at h
    cases v <;> simp_all

theorem model_branch_eq_spec (metrics : Metrics) (base : String) :
    (if pyTruthy (mgetD metrics "model" PyVal.pnone) = true then
        base ++ " model=" ++ pyStr (mgetD metrics "model" PyVal.pnone)
      else base) = base ++ specModelSuffix metrics := by
  unfold mgetD specModelSuffix
  rcases mget metrics "model" with _ | v
  · simp [pyTruthy]
  · by_cases hv : pyTruthy v = true
    · simp [hv, String.append_assoc]
    · simp [hv]

theorem claim_C2_format_refines_spec (pdf_name : String) (metrics : Metrics)
    (h : numericDur metrics = true) :
    format_metrics_line pdf_name metrics = some (specMetricsLine pdf_name metrics) := by
  unfold format_metrics_line
  rw [duration_value_eq_spec metrics h]
  simp only [Option.map_some']
  rw [model_branch_eq_spec]
  rw [mgetD_provider_eq_spec, mgetD_tokens_eq_spec, mgetD_cost_eq_spec]
  rfl

/-- C2 witness: the specification's own example mapping instantiates
the amended claim. -/
theorem claim_C2_witness :
    numericDur [("provider", PyVal.str "mistral"), ("duration_sec", PyVal.fl 1234),
        ("tokens", PyVal.int 50), ("estimated_cost", PyVal.fl 20),
        ("model", PyVal.str "mistral-ocr-latest")] = true ∧
    format_metrics_line "invoice.pdf"
        [("provider", PyVal.str "mistral"), ("duration_sec", PyVal.fl 1234),
         ("tokens", PyVal.int 50), ("estimated_cost", PyVal.fl 20),
         ("model", PyVal.str "mistral-ocr-latest")] =
      some (specMetricsLine "invoice.pdf"
        [("provider", PyVal.str "mistral"), ("duration_sec", PyVal.fl 1234),
         ("tokens", PyVal.int 50), ("estimated_cost", PyVal.fl 20),
         ("model", PyVal.str "mistral-ocr-latest")]) ∧
    specMetricsLine "invoice.pdf"
        [("provider", PyVal.str "mistral"), ("duration_sec", PyVal.fl 1234),
         ("tokens", PyVal.int 50), ("estimated_cost", PyVal.fl 20),
         ("model", PyVal.str "mistral-ocr-latest")] =
      "provider=mistral pdf=invoice.pdf time=1.234s tokens=50 cost=0.02 model=mistral-ocr-latest" :=
  ⟨rfl, claim_C2_format_refines_spec "invoice.pdf" _ rfl, rfl⟩

/-- C8 counterexample: a mapping that lacks the `provider` key but
carries a string `duration_sec` makes `format_metrics_line` fail
(Python's `float("abc")` raises `ValueError`), refuting the claim's
unconditional "does not fail" for every provider-less mapping. -/
theorem claim_C8_counterexample :
    mget [("duration_sec", PyVal.str "abc")] "provider" = none ∧
    format_metrics_line "a.pdf" [("duration_sec", PyVal.str "abc")] = none :=
  ⟨rfl, rfl⟩

/-- C8 (amended): a metrics mapping with no `provider` key and whose
`duration_sec` value, when present, is numeric does not make
`format_metrics_line` fail: it renders the literal `provider=unknown`
as the first field of the line. -/
theorem claim_C8_provider_unknown (pdf_name : String) (metrics : Metrics)
    (hp : mget metrics "provider" = none) (h : numericDur metrics = true) :
    ∃ rest, format_metrics_line pdf_name metrics =
      some ("provider=unknown pdf=" ++ pdf_name ++ rest) := by
  rw [claim_C2_format_refines_spec pdf_name metrics h]
  refine ⟨" time=" ++ (specTimeField metrics ++ (" tokens=" ++ (specTokensField metrics ++
    (" cost=" ++ (specCostField metrics ++ specModelSuffix metrics))))), ?_⟩
  unfold specMetricsLine
  rw [show specProviderField metrics = "unknown" from by
    unfold specProviderField
    rw [hp]]
  simp only [String.append_assoc]
  rfl

/-- C8 witness: a concrete mapping lacking `provider` renders with
`provider=unknown` first. -/
theorem claim_C8_witness :
    mget [("duration_sec", PyVal.int 2)] "provider" = none ∧
    numericDur [("duration_sec", PyVal.int 2)] = true ∧
    ∃ rest, format_metrics_line "a.pdf" [("duration_sec", PyVal.int 2)] =
      some ("provider=unknown pdf=" ++ "a.pdf" ++ rest) :=
  ⟨rfl, rfl, claim_C8_provider_unknown "a.pdf" [("duration_sec", PyVal.int 2)] rfl rfl⟩

theorem splitComma_ne_nil (l : List Char) : splitComma l ≠ [] := by
  cases l with
  | nil => simp [splitComma]
  | cons c rest =>
    unfold splitComma
    rcases h : splitComma rest with _ | ⟨g, gs⟩
    · simp
    · by_cases hc : c = ',' <;> simp [hc]

theorem pySplit_ne_nil (raw : String) : pySplit raw ≠ [] := by
  unfold pySplit
  intro h
  exact splitComma_ne_nil raw.data (List.map_eq_nil_iff.mp h)

theorem pyLower_eq_empty {s : String} (h : pyLower s = "") : s = "" := by
  unfold pyLower at h
  have hdata : s.data.map Char.toLower = [] := congrArg String.data h
  exact strEq_of_data (by simpa using List.map_eq_nil_iff.mp hdata)

/-- C4: when every comma-separated entry normalizes (strip + lowercase)
to a known provider key, `parse_provider_names` returns exactly those
normalized names in input order; when the normalized non-empty entries
are empty as a list or contain an unknown name, it fails with a
`ValueError` (the spec's `InvalidInput`). -/
theorem claim_C4_parse_providers (raw : String) :
    ((∀ i ∈ pySplit raw, pyLower (pyTrim i) ∈ providerKeys) →
      parse_provider_names raw = .ok ((pySplit raw).map (fun i => pyLower (pyTrim i)))) ∧
    ((requestedOf raw = [] ∨ ∃ n ∈ requestedOf raw, n ∉ providerKeys) →
      ∃ msg, parse_provider_names raw = .error (.valueError msg)) := by
  constructor
  · intro hall
    have hfil : (pySplit raw).filter (fun item => decide (pyTrim item ≠ "")) = pySplit raw := by
      apply List.filter_eq_self.mpr
      intro i hi
      have hkey := hall i hi
      simp only [decide_eq_true_eq]
      intro hemp
      rw [hemp] at hkey
      rw [show pyLower "" = "" from rfl] at hkey
      exact absurd hkey (by decide)
    have hreq : requestedOf raw = (pySplit raw).map (fun i => pyLower (pyTrim i)) := by
      unfold requestedOf
      rw [hfil]
    have hne : ¬ requestedOf raw = [] := by
      rw [hreq]
      intro hc
      exact pySplit_ne_nil raw (List.map_eq_nil_iff.mp hc)
    have hunk : (requestedOf raw).filter (fun name => decide (name ∉ providerKeys)) = [] := by
      apply List.filter_eq_nil_iff.mpr
      intro n hn
      rw [hreq] at hn
      obtain ⟨i, hi, hni⟩ := List.mem_map.mp hn
      simpa using hni ▸ hall i hi
    simp only [parse_provider_names]
    rw [if_neg hne, hunk]
    rw [if_pos rfl, hreq]
  · intro hbad
    rcases hbad with hemp | ⟨n, hn, hnk⟩
    · exact ⟨_, by simp only [parse_provider_names]; rw [if_pos hemp]⟩
    · have hne : ¬ requestedOf raw = [] := by
        intro hc
        rw [hc] at hn
        exact absurd hn (List.not_mem_nil n)
      have hunk : ¬ (requestedOf raw).filter (fun name => decide (name ∉ providerKeys)) = [] := by
        intro hc
        have : n ∈ (requestedOf raw).filter (fun name => decide (name ∉ providerKeys)) :=
          List.mem_filter.mpr ⟨hn, by simpa using hnk⟩
        rw [hc] at this
        exact absurd this (List.not_mem_nil n)
      exact ⟨_, by simp only [parse_provider_names]; rw [if_neg hne, if_neg hunk]⟩

/-- C4 witness: a mixed-case, whitespace-padded provider string whose
entries are all known resolves to the normalized list in order. -/
theorem claim_C4_witness :
    (∀ i ∈ pySplit "Mistral, MARKER", pyLower (pyTrim i) ∈ providerKeys) ∧
    parse_provider_names "Mistral, MARKER" = .ok ["mistral", "marker"] :=
  ⟨by decide, (claim_C4_parse_providers "Mistral, MARKER").1 (by decide)⟩

/-- C10: empty or whitespace-only comma segments are dropped before
validation (the normalized list never contains the empty string, and
inputs with empty segments succeed), while duplicate names are kept in
order of appearance. -/
theorem claim_C10_empty_segments_dropped :
    (∀ raw : String, "" ∉ requestedOf raw) ∧
    parse_provider_names "mistral,,landing_ai" = .ok ["mistral", "landing_ai"] ∧
    parse_provider_names "mistral," = .ok ["mistral"] ∧
    parse_provider_names "mistral,mistral" = .ok ["mistral", "mistral"] := by
  refine ⟨?_, rfl, rfl, rfl⟩
  intro raw hmem
  unfold requestedOf at hmem
  obtain ⟨i, hi, heq⟩ := List.mem_map.mp hmem
  have htrim : pyTrim i ≠ "" := by simpa using (List.mem_filter.mp hi).2
  exact htrim (pyLower_eq_empty heq)

/-- C5: for an existing directory, `list_pdfs` returns exactly the
entries whose extension matches `.pdf` case-insensitively — a
permutation of the filtered entries, membership-equivalent to them, and
sorted by name (code-point order, as Python's `sorted`); for a missing
directory it fails with `FileNotFoundError` (the spec's `NotFound`). -/
theorem claim_C5_list_pdfs :
    (∀ dirPath : String, list_pdfs dirPath none =
      .error (.fileNotFound ("Input directory does not exist: " ++ dirPath))) ∧
    (∀ (dirPath : String) (entries : List String), ∃ r,
      list_pdfs dirPath (some entries) = .ok r ∧
      r.Perm (entries.filter (fun name => decide (pyLower (pySuffix name) = ".pdf"))) ∧
      (∀ n, n ∈ r ↔ n ∈ entries ∧ pyLower (pySuffix n) = ".pdf") ∧
      r.Sorted strLeP) := by
  refine ⟨fun dirPath => rfl, fun dirPath entries => ⟨_, rfl, ?_, ?_, ?_⟩⟩
  · exact List.perm_insertionSort _ _
  · intro n
    rw [(List.perm_insertionSort _ _).mem_iff, List.mem_filter]
    simp
  · exact List.sorted_insertionSort _ _

/-- C5 witness: a concrete mixed directory listing. -/
theorem claim_C5_witness :
    ∃ r, list_pdfs "sample_pdfs" (some ["b.PDF", "a.pdf", "c.txt", "nope"]) = .ok r ∧
      r.Perm (["b.PDF", "a.pdf", "c.txt", "nope"].filter
        (fun name => decide (pyLower (pySuffix name) = ".pdf"))) ∧
      (∀ n, n ∈ r ↔ n ∈ ["b.PDF", "a.pdf", "c.txt", "nope"] ∧ pyLower (pySuffix n) = ".pdf") ∧
      r.Sorted strLeP :=
  claim_C5_list_pdfs.2 "sample_pdfs" ["b.PDF", "a.pdf", "c.txt", "nope"]

/-- C6: resolving an explicitly named input file fails with
`FileNotFoundError` when the file is not in the directory (or the
directory itself is missing), fails with `ValueError` when it exists
but its extension is not `.pdf` case-insensitively, and otherwise
returns the one-element list holding that file's path. -/
theorem claim_C6_resolve_named (dirPath f : String) (entries : List String) (hf : f ≠ "") :
    (resolve_pdf_paths dirPath none (some f) =
      .error (.fileNotFound ("Input PDF does not exist: " ++ (dirPath ++ "/" ++ f)))) ∧
    (f ∉ entries → resolve_pdf_paths dirPath (some entries) (some f) =
      .error (.fileNotFound ("Input PDF does not exist: " ++ (dirPath ++ "/" ++ f)))) ∧
    (f ∈ entries → pyLower (pySuffix f) ≠ ".pdf" →
      resolve_pdf_paths dirPath (some entries) (some f) =
        .error (.valueError ("Input file must be a PDF: " ++ f))) ∧
    (f ∈ entries → pyLower (pySuffix f) = ".pdf" →
      resolve_pdf_paths dirPath (some entries) (some f) = .ok [dirPath ++ "/" ++ f]) := by
  refine ⟨?_, ?_, ?_, ?_⟩
  · simp [resolve_pdf_paths, hf]
  · intro hnm
    simp [resolve_pdf_paths, hf, hnm]
  · intro hm hsuf
    simp [resolve_pdf_paths, hf, hm, hsuf]
  · intro hm hsuf
    simp [resolve_pdf_paths, hf, hm, hsuf]

/-- C6 witness: the three outcomes on a concrete directory. -/
theorem claim_C6_witness :
    resolve_pdf_paths "sample_pdfs" (some ["invoice.pdf", "notes.txt"]) (some "missing.pdf") =
      .error (.fileNotFound "Input PDF does not exist: sample_pdfs/missing.pdf") ∧
    resolve_pdf_paths "sample_pdfs" (some ["invoice.pdf", "notes.txt"]) (some "notes.txt") =
      .error (.valueError "Input file must be a PDF: notes.txt") ∧
    resolve_pdf_paths "sample_pdfs" (some ["invoice.pdf", "notes.txt"]) (some "invoice.pdf") =
      .ok ["sample_pdfs/invoice.pdf"] :=
  ⟨(claim_C6_resolve_named "sample_pdfs" "missing.pdf" ["invoice.pdf", "notes.txt"]
      (by decide)).2.1 (by decide),
   (claim_C6_resolve_named "sample_pdfs" "notes.txt" ["invoice.pdf", "notes.txt"]
      (by decide)).2.2.1 (by decide) (by decide),
   (claim_C6_resolve_named "sample_pdfs" "invoice.pdf" ["invoice.pdf", "notes.txt"]
      (by decide)).2.2.2 (by decide) (by decide)⟩

theorem getFile_ensure_dir (fs : FS) (d p : PathC) :
    getFile (ensure_dir fs d) p = getFile fs p :=
  rfl

theorem getFile_setFile_self (fs : FS) (p : PathC) (c : String) :
    getFile (setFile fs p c) p = some c := by
  unfold getFile setFile
  rw [List.find?_cons_of_pos _ (by simp)]
  rfl

theorem getFile_setFile_ne (fs : FS) (p q : PathC) (c : String) (hq : q ≠ p) :
    getFile (setFile fs p c) q = getFile fs q := by
  unfold getFile setFile
  rw [List.find?_cons_of_neg _ (by simpa using fun h : p = q => hq h.symm)]
  rw [find?_filter_key_ne fs.files q p hq]

theorem getFile_append_metrics_self (fs : FS) (p : PathC) (line : String) :
    getFile (append_metrics fs p line) p = some (contentOf fs p ++ line ++ "\n") :=
  getFile_setFile_self _ _ _

theorem contentOf_append_metrics_self (fs : FS) (p : PathC) (line : String) :
    contentOf (append_metrics fs p line) p = contentOf fs p ++ line ++ "\n" := by
  unfold contentOf
  rw [getFile_append_metrics_self]
  rfl

theorem getFile_append_metrics_ne (fs : FS) (p q : PathC) (line : String) (hq : q ≠ p) :
    getFile (append_metrics fs p line) q = getFile fs q :=
  getFile_setFile_ne _ _ _ _ hq

theorem contentOf_append_metrics_ne (fs : FS) (p q : PathC) (line : String) (hq : q ≠ p) :
    contentOf (append_metrics fs p line) q = contentOf fs q := by
  unfold contentOf
  rw [getFile_append_metrics_ne _ _ _ _ hq]

theorem getFile_save_markdown_ne (fs : FS) (p q : PathC) (c : String) (hq : q ≠ p) :
    getFile (save_markdown fs p c) q = getFile fs q :=
  getFile_setFile_ne _ _ _ _ hq

theorem self_mem_inits {α : Type} (l : List α) : l ∈ l.inits := by
  induction l with
  | nil => simp [List.inits]
  | cons a t ih =>
    rw [List.inits_cons]
    exact List.mem_cons_of_mem _ (List.mem_map.mpr ⟨t, ih, rfl⟩)

theorem mem_dirs_ensure_of_mem (fs : FS) (d e : PathC) (h : e ∈ fs.dirs) :
    e ∈ (ensure_dir fs d).dirs :=
  List.mem_append_left _ h

theorem inits_mem_ensure_dir (fs : FS) (d q : PathC) (hq : q ∈ d.inits) :
    q ∈ (ensure_dir fs d).dirs := by
  unfold ensure_dir
  by_cases h : q ∈ fs.dirs
  · exact List.mem_append_left _ h
  · exact List.mem_append_right _ (List.mem_filter.mpr ⟨hq, by simpa using h⟩)

theorem self_mem_ensure_dir (fs : FS) (d : PathC) : d ∈ (ensure_dir fs d).dirs :=
  inits_mem_ensure_dir fs d d (self_mem_inits d)

/-- C7: `append_metrics` creates the missing parent directories, appends
exactly the given line plus one newline to the target file without
touching any other file, and two appends on a fresh path produce
exactly `"a\nb\n"`. -/
theorem claim_C7_append_semantics (fs : FS) (p : PathC) (line : String) :
    (getFile (append_metrics fs p line) p = some (contentOf fs p ++ line ++ "\n")) ∧
    (∀ q ∈ p.dropLast.inits, q ∈ (append_metrics fs p line).dirs) ∧
    (∀ q, q ≠ p → getFile (append_metrics fs p line) q = getFile fs q) ∧
    getFile
      (append_metrics (append_metrics ⟨[], []⟩ ["output", "metrics.txt"] "a")
        ["output", "metrics.txt"] "b") ["output", "metrics.txt"] = some "a\nb\n" := by
  refine ⟨getFile_append_metrics_self fs p line, ?_, ?_, rfl⟩
  · intro q hq
    exact inits_mem_ensure_dir fs p.dropLast q hq
  · intro q hq
    exact getFile_append_metrics_ne fs p q line hq

/-- C7 witness: concrete append on a fresh path, parent creation, and
non-interference with another path. -/
theorem claim_C7_witness :
    getFile (append_metrics ⟨[], []⟩ ["output", "metrics.txt"] "a") ["output", "metrics.txt"] =
      some (contentOf ⟨[], []⟩ ["output", "metrics.txt"] ++ "a" ++ "\n") ∧
    ["output"] ∈ (append_metrics ⟨[], []⟩ ["output", "metrics.txt"] "a").dirs ∧
    getFile (append_metrics ⟨[], []⟩ ["output", "metrics.txt"] "a") ["other"] =
      getFile ⟨[], []⟩ ["other"] :=
  ⟨(claim_C7_append_semantics ⟨[], []⟩ ["output", "metrics.txt"] "a").1,
   (claim_C7_append_semantics ⟨[], []⟩ ["output", "metrics.txt"] "a").2.1 ["output"] (by decide),
   (claim_C7_append_semantics ⟨[], []⟩ ["output", "metrics.txt"] "a").2.2.1 ["other"] (by decide)⟩

/-- Value of a little-endian digit list. -/
def decValOf : List Nat → Nat
  | [] => 0
  | d :: t => d + 10 * decValOf t

/-- Numeric value recovered from a decimal character list (left inverse
of the renderings, used for injectivity). -/
def decValL (l : List Char) : Nat :=
  decValOf ((l.map (fun c => c.toNat - 48)).reverse)

theorem decValOf_decDigitsAux : ∀ (fuel n : Nat), n ≤ fuel →
    decValOf (decDigitsAux fuel n) = n
  | 0, 0, _ => rfl
  | 0, _ + 1, h => absurd h (by omega)
  | _ + 1, 0, _ => rfl
  | fuel + 1, n + 1, h => by
    have hdiv : (n + 1) / 10 ≤ fuel := by
      have := Nat.div_lt_self (Nat.succ_pos n) (by omega : 1 < 10)
      omega
    unfold decDigitsAux decValOf
    rw [decValOf_decDigitsAux fuel ((n + 1) / 10) hdiv]
    omega

theorem decValOf_decDigits (n : Nat) : decValOf (decDigits n) = n :=
  decValOf_decDigitsAux n n (Nat.le_refl n)

theorem decDigitsAux_lt_ten : ∀ (fuel n : Nat), ∀ d ∈ decDigitsAux fuel n, d < 10
  | 0, _, d, hd => absurd hd (List.not_mem_nil d)
  | _ + 1, 0, d, hd => absurd hd (List.not_mem_nil d)
  | fuel + 1, n + 1, d, hd => by
    unfold decDigitsAux at hd
    rcases List.mem_cons.mp hd with h | h
    · rw [h]
      exact Nat.mod_lt _ (by omega)
    · exact decDigitsAux_lt_ten fuel ((n + 1) / 10) d h

theorem digitChar_sub (d : Nat) (hd : d < 10) : (digitChar d).toNat - 48 = d := by
  interval_cases d <;> decide

theorem map_id_of_mem {α : Type} (l : List α) (f : α → α) (h : ∀ x ∈ l, f x = x) :
    l.map f = l := by
  induction l with
  | nil => rfl
  | cons a t ih =>
    rw [List.map_cons, h a (List.mem_cons_self a t),
      ih (fun x hx => h x (List.mem_cons_of_mem a hx))]

theorem decValL_natDecL (n : Nat) : decValL (natDecL n) = n := by
  unfold natDecL
  by_cases h : n = 0
  · rw [if_pos h, h]
    decide
  · rw [if_neg h]
    unfold decValL
    rw [List.map_reverse, List.reverse_reverse, List.map_map]
    have hmap : (decDigits n).map ((fun c => c.toNat - 48) ∘ digitChar) = decDigits n :=
      map_id_of_mem (decDigits n) _
        (fun d hd => digitChar_sub d (decDigitsAux_lt_ten n n d hd))
    rw [hmap, decValOf_decDigits]

theorem decValOf_append_zero (l : List Nat) : decValOf (l ++ [0]) = decValOf l := by
  induction l with
  | nil => rfl
  | cons d t ih =>
    unfold decValOf
    rw [List.cons_append]
    show d + 10 * decValOf (t ++ [0]) = d + 10 * decValOf t
    rw [ih]

theorem decValL_pad2L (n : Nat) : decValL (pad2L n) = n := by
  unfold pad2L
  by_cases h : n < 10
  · rw [if_pos h]
    show decValOf ((('0' :: natDecL n).map (fun c => c.toNat - 48)).reverse) = n
    rw [List.map_cons, List.reverse_cons]
    rw [show '0'.toNat - 48 = 0 from rfl, decValOf_append_zero]
    exact decValL_natDecL n
  · rw [if_neg h]
    exact decValL_natDecL n

theorem pad2_injective : Function.Injective pad2 := by
  intro a b h
  have hdata : pad2L a = pad2L b := congrArg String.data h
  have := congrArg decValL hdata
  rwa [decValL_pad2L, decValL_pad2L] at this

theorem strApp_data (a b : String) : (a ++ b).data = a.data ++ b.data :=
  rfl

theorem cand_injective (base : String) : Function.Injective (cand base) := by
  intro a b h
  match a, b with
  | 0, 0 => rfl
  | 0, k + 1 =>
    exfalso
    have hlen : base.data.length = ((base.data ++ ['_']) ++ pad2L (k + 1)).length :=
      congrArg (fun s : String => s.data.length) h
    simp [List.length_append] at hlen
  | k + 1, 0 =>
    exfalso
    have hlen : ((base.data ++ ['_']) ++ pad2L (k + 1)).length = base.data.length :=
      congrArg (fun s : String => s.data.length) h
    simp [List.length_append] at hlen
  | j + 1, k + 1 =>
    have hdata : (base.data ++ ['_']) ++ pad2L (j + 1) = (base.data ++ ['_']) ++ pad2L (k + 1) :=
      congrArg String.data h
    have hp : pad2L (j + 1) = pad2L (k + 1) := List.append_cancel_left hdata
    have := pad2_injective (strEq_of_data hp)
    omega

theorem pathExists_iff_mem (fs : FS) (p : PathC) :
    pathExists fs p ↔ p ∈ fs.dirs ++ fs.files.map Prod.fst := by
  unfold pathExists
  exact (List.mem_append).symm

theorem findRunIdAux_none_all (fs : FS) (runsDir : PathC) (base : String) :
    ∀ (fuel k : Nat), findRunIdAux fs runsDir base fuel k = none →
      ∀ j < fuel, pathExists fs (runsDir ++ [cand base (k + j)])
  | 0, _, _, j, hj => absurd hj (Nat.not_lt_zero j)
  | fuel + 1, k, h, j, hj => by
    unfold findRunIdAux at h
    by_cases hex : pathExists fs (runsDir ++ [cand base k])
    · rw [if_pos hex] at h
      cases j with
      | zero => simpa using hex
      | succ j' =>
        have hrec := findRunIdAux_none_all fs runsDir base fuel (k + 1) h j' (by omega)
        rw [show k + (j' + 1) = k + 1 + j' from by omega]
        exact hrec
    · rw [if_neg hex] at h
      exact absurd h (by simp)

theorem findRunIdAux_some_first (fs : FS) (runsDir : PathC) (base : String) :
    ∀ (fuel k : Nat) (r : String), findRunIdAux fs runsDir base fuel k = some r →
      ∃ i, k ≤ i ∧ r = cand base i ∧ ¬ pathExists fs (runsDir ++ [cand base i]) ∧
        ∀ j, k ≤ j → j < i → pathExists fs (runsDir ++ [cand base j])
  | 0, k, r, h => by simp [findRunIdAux] at h
  | fuel + 1, k, r, h => by
    unfold findRunIdAux at h
    by_cases hex : pathExists fs (runsDir ++ [cand base k])
    · rw [if_pos hex] at h
      obtain ⟨i, hki, hr, hne, hall⟩ :=
        findRunIdAux_some_first fs runsDir base fuel (k + 1) r h
      refine ⟨i, by omega, hr, hne, ?_⟩
      intro j hkj hji
      by_cases hjk : j = k
      · rw [hjk]
        exact hex
      · exact hall j (by omega) hji
    · rw [if_neg hex] at h
      refine ⟨k, Nat.le_refl k, (Option.some_inj.mp h).symm, hex, ?_⟩
      intro j hkj hji
      exact absurd hji (by omega)

theorem findRunIdAux_sufficient (fs : FS) (runsDir : PathC) (base : String) :
    findRunIdAux fs runsDir base (sizeFS fs + 1) 0 ≠ none := by
  intro hnone
  have hall : ∀ j < sizeFS fs + 1, pathExists fs (runsDir ++ [cand base j]) := by
    intro j hj
    simpa using findRunIdAux_none_all fs runsDir base (sizeFS fs + 1) 0 hnone j hj
  have hinj : Function.Injective (fun j : Nat => runsDir ++ [cand base j]) := by
    intro a b hab
    have hsing : [cand base a] = [cand base b] := List.append_cancel_left hab
    exact cand_injective base (by simpa using hsing)
  have hsub : (Finset.range (sizeFS fs + 1)).image (fun j => runsDir ++ [cand base j]) ⊆
      (fs.dirs ++ fs.files.map Prod.fst).toFinset := by
    intro p hp
    obtain ⟨j, hj, rfl⟩ := Finset.mem_image.mp hp
    exact List.mem_toFinset.mpr
      ((pathExists_iff_mem fs _).mp (hall j (Finset.mem_range.mp hj)))
  have hcard := Finset.card_le_card hsub
  rw [Finset.card_image_of_injective _ hinj, Finset.card_range] at hcard
  have hlen : (fs.dirs ++ fs.files.map Prod.fst).toFinset.card ≤
      (fs.dirs ++ fs.files.map Prod.fst).length :=
    List.toFinset_card_le _
  have hsize : (fs.dirs ++ fs.files.map Prod.fst).length = sizeFS fs := rfl
  omega

/-- C3: `create_run_output_dir` tries the bare timestamp, then the
two-digit suffixes `_01`, `_02`, … in order and takes the first name
unused under `<output_root>/runs/` (in particular, a runs directory
already holding `20240101_000000`, allocated again at the identical
timestamp, yields `20240101_000000_01`), and the returned run directory
is created before returning, so it exists in the resulting state. -/
theorem claim_C3_run_dir_allocation :
    ((create_run_output_dir
        ⟨[["output"], ["output", "runs"], ["output", "runs", "20240101_000000"]], []⟩
        ["output"] "20240101_000000").1 = "20240101_000000_01") ∧
    (∀ (fs : FS) (output_dir : PathC) (now : String), ∃ k,
      (create_run_output_dir fs output_dir now).1 = cand now k ∧
      (create_run_output_dir fs output_dir now).2.1 =
        output_dir ++ ["runs"] ++ [cand now k] ∧
      ¬ pathExists (ensure_dir fs (output_dir ++ ["runs"]))
          (output_dir ++ ["runs"] ++ [cand now k]) ∧
      (∀ j < k, pathExists (ensure_dir fs (output_dir ++ ["runs"]))
          (output_dir ++ ["runs"] ++ [cand now j]))) ∧
    (∀ (fs : FS) (output_dir : PathC) (now : String),
      (create_run_output_dir fs output_dir now).2.1 ∈
        (create_run_output_dir fs output_dir now).2.2.dirs) := by
  refine ⟨by decide, ?_, ?_⟩
  · intro fs output_dir now
    rcases hfind : findRunIdAux (ensure_dir fs (output_dir ++ ["runs"]))
        (output_dir ++ ["runs"]) now
        (sizeFS (ensure_dir fs (output_dir ++ ["runs"])) + 1) 0 with _ | r
    · exact absurd hfind (findRunIdAux_sufficient _ _ now)
    · obtain ⟨i, _, hr, hne, hall⟩ :=
        findRunIdAux_some_first _ _ now _ 0 r hfind
      have h1 : (create_run_output_dir fs output_dir now).1 = r := by
        simp only [create_run_output_dir]
        rw [hfind]
        rfl
      refine ⟨i, by rw [h1, hr], ?_, hne, ?_⟩
      · show output_dir ++ ["runs"] ++ [(create_run_output_dir fs output_dir now).1] =
          output_dir ++ ["runs"] ++ [cand now i]
        rw [h1, hr]
      · intro j hj
        exact hall j (Nat.zero_le j) hj
  · intro fs output_dir now
    simp only [create_run_output_dir]
    exact self_mem_ensure_dir _ _

/-- C3 witness: the allocation postcondition at a concrete state. -/
theorem claim_C3_witness :
    (create_run_output_dir ⟨[], []⟩ ["output"] "20240101_000000").2.1 ∈
      (create_run_output_dir ⟨[], []⟩ ["output"] "20240101_000000").2.2.dirs :=
  claim_C3_run_dir_allocation.2.2 ⟨[], []⟩ ["output"] "20240101_000000"

theorem contentOf_ensure_dir (fs : FS) (d p : PathC) :
    contentOf (ensure_dir fs d) p = contentOf fs p :=
  rfl

theorem contentOf_save_markdown_ne (fs : FS) (p q : PathC) (c : String) (hq : q ≠ p) :
    contentOf (save_markdown fs p c) q = contentOf fs q := by
  unfold contentOf
  rw [getFile_save_markdown_ne _ _ _ _ hq]

theorem run_provider_appends (run_id provider_name : String) (result : AdapterResult)
    (okMs errMs : Int) (pdf_name pdf_stem : String) (run_dir runp globp : PathC) (fs : FS)
    (hrg : runp ≠ globp)
    (hmr : run_dir ++ [provider_name] ++ [pdf_stem ++ ".md"] ≠ runp)
    (hmg : run_dir ++ [provider_name] ++ [pdf_stem ++ ".md"] ≠ globp) :
    ∃ l,
      contentOf (run_provider_for_pdf run_id provider_name result okMs errMs pdf_name pdf_stem
        run_dir runp globp fs) runp = contentOf fs runp ++ l ++ "\n" ∧
      contentOf (run_provider_for_pdf run_id provider_name result okMs errMs pdf_name pdf_stem
        run_dir runp globp fs) globp = contentOf fs globp ++ l ++ "\n" ∧
      ∀ e, result = .error e →
        (∀ q, q ≠ runp → q ≠ globp →
          getFile (run_provider_for_pdf run_id provider_name result okMs errMs pdf_name pdf_stem
            run_dir runp globp fs) q = getFile fs q) ∧
        ∃ b, l = b ++ " error=" ++ e := by
  unfold run_provider_for_pdf runProviderTry
  rcases result with e | ⟨markdown, metrics⟩
  · refine ⟨(format_metrics_line pdf_name
        [("run_id", .str run_id), ("provider", .str provider_name),
         ("duration_sec", .fl errMs), ("error", .str e)]).getD "" ++ " error=" ++ e,
      ?_, ?_, ?_⟩
    · rw [contentOf_append_metrics_ne _ _ _ _ hrg, contentOf_append_metrics_self]
    · rw [contentOf_append_metrics_self, contentOf_append_metrics_ne _ _ _ _ (Ne.symm hrg)]
    · intro e' he'
      injection he' with he2
      subst he2
      refine ⟨?_, ⟨_, rfl⟩⟩
      intro q hqr hqg
      rw [getFile_append_metrics_ne _ _ _ _ hqg, getFile_append_metrics_ne _ _ _ _ hqr]
  · dsimp only
    rcases hfmt : format_metrics_line pdf_name
        (msetdefault (msetdefault (msetdefault metrics "run_id" (PyVal.str run_id))
          "provider" (PyVal.str provider_name)) "duration_sec" (PyVal.fl okMs)) with _ | line
    · refine ⟨(format_metrics_line pdf_name
          [("run_id", .str run_id), ("provider", .str provider_name),
           ("duration_sec", .fl errMs),
           ("error", .str "could not convert string to float")]).getD "" ++
            " error=" ++ "could not convert string to float",
        ?_, ?_, ?_⟩
      · rw [contentOf_append_metrics_ne _ _ _ _ hrg, contentOf_append_metrics_self,
          contentOf_save_markdown_ne _ _ _ _ (Ne.symm hmr)]
        rfl
      · rw [contentOf_append_metrics_self, contentOf_append_metrics_ne _ _ _ _ (Ne.symm hrg),
          contentOf_save_markdown_ne _ _ _ _ (Ne.symm hmg)]
        rfl
      · intro e' he'
        simp at he'
    · refine ⟨line, ?_, ?_, ?_⟩
      · rw [contentOf_append_metrics_ne _ _ _ _ hrg, contentOf_append_metrics_self,
          contentOf_save_markdown_ne _ _ _ _ (Ne.symm hmr)]
        rfl
      · rw [contentOf_append_metrics_self, contentOf_append_metrics_ne _ _ _ _ (Ne.symm hrg),
          contentOf_save_markdown_ne _ _ _ _ (Ne.symm hmg)]
        rfl
      · intro e' he'
        simp at he'

/-- Concatenation of metrics records, each followed by one newline. -/
def joinLines : List String → String
  | [] => ""
  | l :: ls => l ++ "\n" ++ joinLines ls

theorem joinLines_append : ∀ xs ys : List String,
    joinLines (xs ++ ys) = joinLines xs ++ joinLines ys
  | [], ys => by simp [joinLines]
  | x :: xs, ys => by
    show (x ++ "\n") ++ joinLines (xs ++ ys) = ((x ++ "\n") ++ joinLines xs) ++ joinLines ys
    rw [joinLines_append xs ys]
    simp [String.append_assoc]

theorem runOnePdf_appends (run_id : String) (adapter : String → String → AdapterResult)
    (okMs errMs : String → String → Int) (pdf : String × String)
    (run_dir runp globp : PathC)
    (hrg : runp ≠ globp)
    (hmr : ∀ pn : String, run_dir ++ [pn] ++ [pdf.2 ++ ".md"] ≠ runp)
    (hmg : ∀ pn : String, run_dir ++ [pn] ++ [pdf.2 ++ ".md"] ≠ globp) :
    ∀ (provider_names : List String) (fs : FS),
      ∃ ls, ls.length = provider_names.length ∧
        contentOf (runOnePdf run_id adapter okMs errMs provider_names pdf run_dir runp globp fs)
          runp = contentOf fs runp ++ joinLines ls ∧
        contentOf (runOnePdf run_id adapter okMs errMs provider_names pdf run_dir runp globp fs)
          globp = contentOf fs globp ++ joinLines ls
  | [], fs => ⟨[], rfl, by simp [runOnePdf, joinLines], by simp [runOnePdf, joinLines]⟩
  | pn :: rest, fs => by
    obtain ⟨l, h1, h2, _⟩ := run_provider_appends run_id pn (adapter pn pdf.1)
      (okMs pn pdf.1) (errMs pn pdf.1) pdf.1 pdf.2 run_dir runp globp fs
      hrg (hmr pn) (hmg pn)
    obtain ⟨ls, hlen, hr1, hr2⟩ := runOnePdf_appends run_id adapter okMs errMs pdf
      run_dir runp globp hrg hmr hmg rest
      (run_provider_for_pdf run_id pn (adapter pn pdf.1) (okMs pn pdf.1) (errMs pn pdf.1)
        pdf.1 pdf.2 run_dir runp globp fs)
    refine ⟨l :: ls, by simp [hlen], ?_, ?_⟩
    · show contentOf (runOnePdf run_id adapter okMs errMs rest pdf run_dir runp globp
        (run_provider_for_pdf run_id pn (adapter pn pdf.1) (okMs pn pdf.1) (errMs pn pdf.1)
          pdf.1 pdf.2 run_dir runp globp fs)) runp = _
      rw [hr1, h1]
      simp [joinLines, String.append_assoc]
    · show contentOf (runOnePdf run_id adapter okMs errMs rest pdf run_dir runp globp
        (run_provider_for_pdf run_id pn (adapter pn pdf.1) (okMs pn pdf.1) (errMs pn pdf.1)
          pdf.1 pdf.2 run_dir runp globp fs)) globp = _
      rw [hr2, h2]
      simp [joinLines, String.append_assoc]

theorem run_metrics_path_ne_global (output_dir : PathC) (run_id : String) :
    (output_dir ++ ["runs", run_id]) ++ ["metrics.txt"] ≠ output_dir ++ ["metrics.txt"] := by
  intro hc
  have hlen := congrArg List.length hc
  simp [List.length_append] at hlen

theorem md_path_ne_run_metrics (output_dir : PathC) (run_id pn stem : String) :
    (output_dir ++ ["runs", run_id]) ++ [pn] ++ [stem ++ ".md"] ≠
      (output_dir ++ ["runs", run_id]) ++ ["metrics.txt"] := by
  intro hc
  have hlen := congrArg List.length hc
  simp [List.length_append] at hlen

theorem md_path_ne_global_metrics (output_dir : PathC) (run_id pn stem : String) :
    (output_dir ++ ["runs", run_id]) ++ [pn] ++ [stem ++ ".md"] ≠
      output_dir ++ ["metrics.txt"] := by
  intro hc
  have hlen := congrArg List.length hc
  simp [List.length_append] at hlen

theorem runAllPairings_appends (run_id : String) (adapter : String → String → AdapterResult)
    (okMs errMs : String → String → Int) (provider_names : List String)
    (output_dir : PathC) :
    ∀ (pdfs : List (String × String)) (fs : FS),
      ∃ ls, ls.length = pdfs.length * provider_names.length ∧
        contentOf (runAllPairings run_id adapter okMs errMs provider_names pdfs output_dir fs)
          ((output_dir ++ ["runs", run_id]) ++ ["metrics.txt"]) =
          contentOf fs ((output_dir ++ ["runs", run_id]) ++ ["metrics.txt"]) ++ joinLines ls ∧
        contentOf (runAllPairings run_id adapter okMs errMs provider_names pdfs output_dir fs)
          (output_dir ++ ["metrics.txt"]) =
          contentOf fs (output_dir ++ ["metrics.txt"]) ++ joinLines ls
  | [], fs => ⟨[], by simp, by simp [runAllPairings, joinLines], by simp [runAllPairings, joinLines]⟩
  | pdf :: rest, fs => by
    obtain ⟨ls1, hlen1, h1, h2⟩ := runOnePdf_appends run_id adapter okMs errMs pdf
      (output_dir ++ ["runs", run_id])
      ((output_dir ++ ["runs", run_id]) ++ ["metrics.txt"])
      (output_dir ++ ["metrics.txt"])
      (run_metrics_path_ne_global output_dir run_id)
      (fun pn => md_path_ne_run_metrics output_dir run_id pn pdf.2)
      (fun pn => md_path_ne_global_metrics output_dir run_id pn pdf.2)
      provider_names fs
    obtain ⟨ls2, hlen2, hr1, hr2⟩ := runAllPairings_appends run_id adapter okMs errMs
      provider_names output_dir rest
      (runOnePdf run_id adapter okMs errMs provider_names pdf (output_dir ++ ["runs", run_id])
        ((output_dir ++ ["runs", run_id]) ++ ["metrics.txt"]) (output_dir ++ ["metrics.txt"]) fs)
    refine ⟨ls1 ++ ls2, ?_, ?_, ?_⟩
    · rw [List.length_append, hlen1, hlen2, List.length_cons, Nat.succ_mul]
      omega
    · show contentOf (runAllPairings run_id adapter okMs errMs provider_names rest output_dir
        (runOnePdf run_id adapter okMs errMs provider_names pdf (output_dir ++ ["runs", run_id])
          ((output_dir ++ ["runs", run_id]) ++ ["metrics.txt"])
          (output_dir ++ ["metrics.txt"]) fs))
        ((output_dir ++ ["runs", run_id]) ++ ["metrics.txt"]) = _
      rw [hr1, h1, joinLines_append, String.append_assoc]
    · show contentOf (runAllPairings run_id adapter okMs errMs provider_names rest output_dir
        (runOnePdf run_id adapter okMs errMs provider_names pdf (output_dir ++ ["runs", run_id])
          ((output_dir ++ ["runs", run_id]) ++ ["metrics.txt"])
          (output_dir ++ ["metrics.txt"]) fs))
        (output_dir ++ ["metrics.txt"]) = _
      rw [hr2, h2, joinLines_append, String.append_assoc]

/-- C1: every (pdf, provider) pairing appends exactly one metrics line —
the same line — to the run-scoped and to the global log, whether the
adapter succeeds or raises; when the adapter raises, no other file is
touched (in particular no markdown is written) and the appended line
carries an ` error=<message>` suffix; the error never propagates, so the
full pdf × provider loop performs exactly `#pdfs * #providers` appends
to each log. -/
theorem claim_C1_pairing_isolation :
    (∀ (run_id provider_name : String) (result : AdapterResult) (okMs errMs : Int)
        (pdf_name pdf_stem : String) (run_dir runp globp : PathC) (fs : FS),
      runp ≠ globp →
      run_dir ++ [provider_name] ++ [pdf_stem ++ ".md"] ≠ runp →
      run_dir ++ [provider_name] ++ [pdf_stem ++ ".md"] ≠ globp →
      ∃ l,
        contentOf (run_provider_for_pdf run_id provider_name result okMs errMs pdf_name pdf_stem
          run_dir runp globp fs) runp = contentOf fs runp ++ l ++ "\n" ∧
        contentOf (run_provider_for_pdf run_id provider_name result okMs errMs pdf_name pdf_stem
          run_dir runp globp fs) globp = contentOf fs globp ++ l ++ "\n" ∧
        ∀ e, result = .error e →
          (∀ q, q ≠ runp → q ≠ globp →
            getFile (run_provider_for_pdf run_id provider_name result okMs errMs pdf_name
              pdf_stem run_dir runp globp fs) q = getFile fs q) ∧
          ∃ b, l = b ++ " error=" ++ e) ∧
    (∀ (run_id : String) (adapter : String → String → AdapterResult)
        (okMs errMs : String → String → Int) (provider_names : List String)
        (output_dir : PathC) (pdfs : List (String × String)) (fs : FS),
      ∃ ls, ls.length = pdfs.length * provider_names.length ∧
        contentOf (runAllPairings run_id adapter okMs errMs provider_names pdfs output_dir fs)
          ((output_dir ++ ["runs", run_id]) ++ ["metrics.txt"]) =
          contentOf fs ((output_dir ++ ["runs", run_id]) ++ ["metrics.txt"]) ++ joinLines ls ∧
        contentOf (runAllPairings run_id adapter okMs errMs provider_names pdfs output_dir fs)
          (output_dir ++ ["metrics.txt"]) =
          contentOf fs (output_dir ++ ["metrics.txt"]) ++ joinLines ls) :=
  ⟨run_provider_appends,
   fun run_id adapter okMs errMs provider_names output_dir pdfs fs =>
     runAllPairings_appends run_id adapter okMs errMs provider_names output_dir pdfs fs⟩

/-- C1 witness: a concrete raising pairing appends one error-suffixed
line to each log and leaves other files untouched, and a concrete 2×2
run produces exactly four records in each log. -/
theorem claim_C1_witness :
    (∃ l,
      contentOf (run_provider_for_pdf "r" "mistral" (.error "boom") 5 7 "a.pdf" "a"
        ["output", "runs", "r"] ["output", "runs", "r", "metrics.txt"]
        ["output", "metrics.txt"] ⟨[], []⟩) ["output", "runs", "r", "metrics.txt"] =
        contentOf ⟨[], []⟩ ["output", "runs", "r", "metrics.txt"] ++ l ++ "\n" ∧
      contentOf (run_provider_for_pdf "r" "mistral" (.error "boom") 5 7 "a.pdf" "a"
        ["output", "runs", "r"] ["output", "runs", "r", "metrics.txt"]
        ["output", "metrics.txt"] ⟨[], []⟩) ["output", "metrics.txt"] =
        contentOf ⟨[], []⟩ ["output", "metrics.txt"] ++ l ++ "\n" ∧
      ∀ e, (Except.error "boom" : AdapterResult) = .error e →
        (∀ q, q ≠ ["output", "runs", "r", "metrics.txt"] → q ≠ ["output", "metrics.txt"] →
          getFile (run_provider_for_pdf "r" "mistral" (.error "boom") 5 7 "a.pdf" "a"
            ["output", "runs", "r"] ["output", "runs", "r", "metrics.txt"]
            ["output", "metrics.txt"] ⟨[], []⟩) q = getFile ⟨[], []⟩ q) ∧
        ∃ b, l = b ++ " error=" ++ e) ∧
    (∃ ls, ls.length = [("a.pdf", "a"), ("b.pdf", "b")].length * ["mistral", "marker"].length ∧
      contentOf (runAllPairings "r" (fun _ _ => .error "boom") (fun _ _ => 5) (fun _ _ => 7)
        ["mistral", "marker"] [("a.pdf", "a"), ("b.pdf", "b")] ["output"] ⟨[], []⟩)
        ((["output"] ++ ["runs", "r"]) ++ ["metrics.txt"]) =
        contentOf ⟨[], []⟩ ((["output"] ++ ["runs", "r"]) ++ ["metrics.txt"]) ++ joinLines ls ∧
      contentOf (runAllPairings "r" (fun _ _ => .error "boom") (fun _ _ => 5) (fun _ _ => 7)
        ["mistral", "marker"] [("a.pdf", "a"), ("b.pdf", "b")] ["output"] ⟨[], []⟩)
        (["output"] ++ ["metrics.txt"]) =
        contentOf ⟨[], []⟩ (["output"] ++ ["metrics.txt"]) ++ joinLines ls) := by
  constructor
  · have h := claim_C1_pairing_isolation.1 "r" "mistral" (.error "boom") 5 7 "a.pdf" "a"
      ["output", "runs", "r"] ["output", "runs", "r", "metrics.txt"]
      ["output", "metrics.txt"] ⟨[], []⟩ (by decide) (by decide) (by decide)
    obtain ⟨l, h1, h2, h3⟩ := h
    refine ⟨l, ?_, ?_, fun e he => h3 e he⟩
    · exact h1
    · exact h2
  · exact claim_C1_pairing_isolation.2 "r" (fun _ _ => .error "boom") (fun _ _ => 5)
      (fun _ _ => 7) ["mistral", "marker"] ["output"] [("a.pdf", "a"), ("b.pdf", "b")] ⟨[], []⟩

/-- C10 witness: the normalized list of a concrete input with an empty
segment contains no empty name. -/
theorem claim_C10_witness : "" ∉ requestedOf "mistral,," :=
  claim_C10_empty_segments_dropped.1 "mistral,,"
